import Mathlib

/-!
Shallow embedding of the ESA NEOCC parsing layer of this repository
(`lists.py` and `tabs.py`), together with proofs about the claims on the
content locator, the impacts/observations/orbit-properties parsers, the
list-URL resolver, the close-approach list reader and the decimal-year
conversion.

A pandas DataFrame of text cells is modelled as an ordered list of column
names plus an ordered list of rows of string cells; a missing cell reads as
the empty string, which stands for NaN.  Row selection arguments of pandas
readers (skiprows / skipfooter / header) are modelled as positional list
operations; the fixed-width cell splitting itself is row-preserving and is
not re-modelled, the rows enter the model already split into cells.
-/

namespace NEOCC

/-- Model of a pandas DataFrame holding string cells. -/
structure DFrame where
  cols : List String
  rows : List (List String)
deriving DecidableEq, Repr

/-- Cell at row `r` and column position `c`; out of range reads the empty
string (the stand-in for NaN). -/
def DFrame.cell (df : DFrame) (r c : Nat) : String :=
  (df.rows.getD r []).getD c ""

/-- Embedding of `get_indexes` (tabs.py), keeping column positions: build
the boolean mask `result`, keep the columns whose mask column is somewhere
true (in declared column order), and for each such column append the pair
of matching row index and column, rows in ascending order.  Columns with no
match contribute nothing, exactly as in the source where they are filtered
out before the iteration. -/
def get_indexes_pos (dfobj : DFrame) (value : String) : List (Nat × Nat) :=
  let result : Nat → Nat → Bool := fun r c => dfobj.cell r c == value
  let columnnames : List Nat := (List.range dfobj.cols.length).filter
    (fun c => (List.range dfobj.rows.length).any (fun r => result r c))
  columnnames.flatMap (fun c =>
    ((List.range dfobj.rows.length).filter (fun r => result r c)).map
      (fun r => (r, c)))

/-- Embedding of `get_indexes` (tabs.py): as the source does, the returned
pairs carry the column name in the second component. -/
def get_indexes (dfobj : DFrame) (value : String) : List (Nat × String) :=
  (get_indexes_pos dfobj value).map (fun p => (p.1, dfobj.cols.getD p.2 ""))

/-- The ordering the spec claims for `get_indexes`: ascending row index
along the whole returned sequence. -/
def rowAscending (l : List (Nat × String)) : Prop :=
  l.Pairwise (fun p q => p.1 ≤ q.1)

/-- The ordering the code actually produces: column-major, i.e. strictly
increasing column position, and inside one column strictly increasing row
index. -/
def colMajor (l : List (Nat × Nat)) : Prop :=
  l.Pairwise (fun p q => p.2 < q.2 ∨ (p.2 = q.2 ∧ p.1 < q.1))

theorem mem_get_indexes_pos (df : DFrame) (v : String) (r c : Nat) :
    (r, c) ∈ get_indexes_pos df v ↔
      r < df.rows.length ∧ c < df.cols.length ∧ df.cell r c = v := by
  unfold get_indexes_pos
  simp only [List.mem_flatMap, List.mem_filter, List.mem_map, List.mem_range,
    List.any_eq_true, beq_iff_eq]
  constructor
  · rintro ⟨c', ⟨hc', -⟩, r', ⟨hr', hv⟩, heq⟩
    obtain ⟨h1, h2⟩ := Prod.mk.injEq .. ▸ heq
    subst h1; subst h2
    exact ⟨hr', hc', hv⟩
  · rintro ⟨hr, hc, hv⟩
    exact ⟨c, ⟨hc, r, hr, hv⟩, r, ⟨hr, hv⟩, rfl⟩

theorem get_indexes_eq_map_pos (df : DFrame) (v : String) :
    get_indexes df v
      = (get_indexes_pos df v).map (fun p => (p.1, df.cols.getD p.2 "")) := rfl

/-- Claim C4, part proved as amended: membership in the result of
`get_indexes` is exactly occurrence of the value; absence of the value
gives the empty list and not an error; and the result is ordered
column-major (columns in the declared column order, rows ascending inside
one column), not row-major as the claim states. -/
theorem C4_get_indexes_amended (df : DFrame) (v : String) :
    (∀ r : Nat, ∀ name : String,
      ((r, name) ∈ get_indexes df v ↔
        ∃ c : Nat, c < df.cols.length ∧ r < df.rows.length ∧
          df.cols.getD c "" = name ∧ df.cell r c = v))
    ∧ ((∀ r < df.rows.length, ∀ c < df.cols.length,
          df.cell r c ≠ v) → get_indexes df v = [])
    ∧ colMajor (get_indexes_pos df v) := by
  refine ⟨?_, ?_, ?_⟩
  · intro r name
    rw [get_indexes_eq_map_pos]
    simp only [List.mem_map, Prod.mk.injEq]
    constructor
    · rintro ⟨⟨r', c'⟩, hmem, h1, h2⟩
      rw [mem_get_indexes_pos] at hmem
      subst h1
      exact ⟨c', hmem.2.1, hmem.1, h2, hmem.2.2⟩
    · rintro ⟨c, hc, hr, hname, hv⟩
      exact ⟨(r, c), (mem_get_indexes_pos df v r c).mpr ⟨hr, hc, hv⟩, rfl, hname⟩
  · intro habs
    rw [get_indexes_eq_map_pos, List.map_eq_nil_iff, List.eq_nil_iff_forall_not_mem]
    rintro ⟨r, c⟩ hmem
    rw [mem_get_indexes_pos] at hmem
    exact habs r hmem.1 c hmem.2.1 hmem.2.2
  · unfold colMajor get_indexes_pos
    rw [List.pairwise_flatMap]
    constructor
    · intro c _
      rw [List.pairwise_map]
      have hpw : ((List.range df.rows.length).filter
          (fun r => df.cell r c == v)).Pairwise (· < ·) :=
        (List.pairwise_lt_range _).sublist (List.filter_sublist _)
      exact hpw.imp (fun h => Or.inr ⟨rfl, h⟩)
    · have hpw : ((List.range df.cols.length).filter
          (fun c => (List.range df.rows.length).any
            (fun r => df.cell r c == v))).Pairwise (· < ·) :=
        (List.pairwise_lt_range _).sublist (List.filter_sublist _)
      refine hpw.imp ?_
      intro c₁ c₂ hlt x hx y hy
      simp only [List.mem_map] at hx hy
      obtain ⟨r₁, -, hx⟩ := hx
      obtain ⟨r₂, -, hy⟩ := hy
      subst hx; subst hy
      exact Or.inl hlt

/-- Example table for the C4 counterexample: the value occurs at row 1 of
the first column and row 0 of the second column. -/
def exTableC4 : DFrame :=
  { cols := ["A", "B"], rows := [["x", "y"], ["y", "x"]] }

/-- Claim C4 as stated is false: on `exTableC4` searching the value `y`,
the code returns the match of column A (row 1) before the match of column
B (row 0), so the sequence is not ordered by ascending row index. -/
theorem C4_counterexample :
    get_indexes exTableC4 "y" = [(1, "A"), (0, "B")]
      ∧ ¬ rowAscending (get_indexes exTableC4 "y") := by
  have h : get_indexes exTableC4 "y" = [(1, "A"), (0, "B")] := by decide
  refine ⟨h, ?_⟩
  rw [h]
  intro hasc
  have := List.rel_of_pairwise_cons hasc (List.mem_singleton.mpr rfl)
  omega

/-- Witness for the amended C4 theorem at a concrete table: the absent
value gives the empty list, no error. -/
theorem C4_amended_witness :
    get_indexes exTableC4 "zz" = [] :=
  (C4_get_indexes_amended exTableC4 "zz").2.1 (by decide)

/-- Keep the elements of a list whose position satisfies the predicate,
starting the position count at `i`. -/
def filterIdx {α : Type} (p : Nat → Bool) : Nat → List α → List α
  | _, [] => []
  | i, x :: xs => if p i then x :: filterIdx p (i + 1) xs else filterIdx p (i + 1) xs

theorem length_filterIdx {α : Type} (p : Nat → Bool) (i : Nat) (xs : List α) :
    (filterIdx p i xs).length
      = (List.range xs.length).countP (fun j => p (i + j)) := by
  induction xs generalizing i with
  | nil => simp [filterIdx]
  | cons x xs ih =>
    have hcongr : (List.range xs.length).countP (fun j => p (i + Nat.succ j))
        = (List.range xs.length).countP (fun j => p (i + 1 + j)) :=
      List.countP_congr (fun j _ => by rw [show i + Nat.succ j = i + 1 + j by omega])
    have hstep : filterIdx p i (x :: xs)
        = if p i then x :: filterIdx p (i + 1) xs else filterIdx p (i + 1) xs := rfl
    rw [hstep, List.length_cons, List.range_succ_eq_map, List.countP_cons,
      List.countP_map]
    have hcomp : ((fun j => p (i + j)) ∘ Nat.succ) = fun j => p (i + Nat.succ j) := rfl
    rw [hcomp, hcongr, ← ih (i + 1)]
    by_cases h : p i <;> simp [h]

theorem countP_or_disjoint {α : Type} (l : List α) (p q : α → Bool)
    (h : ∀ x ∈ l, ¬(p x = true ∧ q x = true)) :
    l.countP (fun x => p x || q x) = l.countP p + l.countP q := by
  induction l with
  | nil => simp
  | cons a l ih =>
    simp only [List.countP_cons]
    rw [ih (fun x hx => h x (List.mem_cons_of_mem a hx))]
    have ha := h a (List.mem_cons_self a l)
    by_cases hp : p a <;> by_cases hq : q a <;> simp [hp, hq] at ha ⊢ <;> omega

theorem countP_contains_range (A : List Nat) (N : Nat) (hnd : A.Nodup)
    (hb : ∀ x ∈ A, x < N) :
    (List.range N).countP (fun i => A.contains i) = A.length := by
  induction A with
  | nil => simp
  | cons a A ih =>
    have hdisj : ∀ x ∈ List.range N, ¬((x == a) = true ∧ A.contains x = true) := by
      intro x _ hboth
      have hxa : x = a := by simpa using hboth.1
      have hmem : a ∈ A := by
        subst hxa
        simpa using hboth.2
      exact (List.nodup_cons.mp hnd).1 hmem
    have hsplit : (List.range N).countP (fun i => i == a || A.contains i)
        = (List.range N).countP (fun i => i == a)
          + (List.range N).countP (fun i => A.contains i) :=
      countP_or_disjoint (List.range N) (fun i => i == a)
        (fun i => A.contains i) hdisj
    have hstep : (List.range N).countP (fun i => (a :: A).contains i)
        = (List.range N).countP (fun i => (i == a) || A.contains i) :=
      List.countP_congr (fun x _ => by rw [List.contains_cons])
    have h1 : (List.range N).countP (fun i => i == a) = 1 := by
      rw [show (fun i => i == a) = (· == a) from rfl, ← List.count_eq_countP]
      exact List.count_eq_one_of_mem (List.nodup_range N)
        (List.mem_range.mpr (hb a (List.mem_cons_self a A)))
    have h2 := ih (List.Nodup.of_cons hnd)
      (fun x hx => hb x (List.mem_cons_of_mem a hx))
    rw [hstep, hsplit, h1, h2, List.length_cons]
    omega

/-- Model of pandas skiprows given as a list of line positions: the lines
at those positions are removed. -/
def keepRows {α : Type} (skip : List Nat) (lines : List α) : List α :=
  filterIdx (fun i => ! skip.contains i) 0 lines

/-- Model of pandas skiprows given as the callable `x not in keep`: only
the lines at the listed positions remain. -/
def keepOnly {α : Type} (keep : List Nat) (lines : List α) : List α :=
  filterIdx (fun i => keep.contains i) 0 lines

theorem length_keepOnly {α : Type} (keep : List Nat) (lines : List α)
    (hnd : keep.Nodup) (hb : ∀ x ∈ keep, x < lines.length) :
    (keepOnly keep lines).length = keep.length := by
  unfold keepOnly
  rw [length_filterIdx]
  rw [List.countP_congr (fun j _ => by rw [Nat.zero_add])]
  exact countP_contains_range keep lines.length hnd hb

theorem length_keepRows {α : Type} (skip : List Nat) (lines : List α)
    (hnd : skip.Nodup) (hb : ∀ x ∈ skip, x < lines.length) :
    (keepRows skip lines).length = lines.length - skip.length := by
  unfold keepRows
  rw [length_filterIdx]
  rw [List.countP_congr (fun j _ => by rw [Nat.zero_add])]
  have hsplit := List.length_eq_countP_add_countP
    (p := fun i => skip.contains i) (List.range lines.length)
  rw [List.length_range] at hsplit
  rw [countP_contains_range skip lines.length hnd hb] at hsplit
  have : (List.range lines.length).countP (fun i => !skip.contains i)
      = (List.range lines.length).countP (fun i => ¬skip.contains i) :=
    List.countP_congr (fun x _ => by simp)
  omega

/-- Model of a pandas read with a list of line positions to skip, a
skipfooter count and an inferred header line: skiprows removes lines by
position, skipfooter trims the tail, and the first remaining line supplies
the column names. -/
def pd_read (skip : List Nat) (skipfooter : Nat)
    (lines : List (List String)) : DFrame :=
  let kept := keepRows skip lines
  let body := kept.take (kept.length - skipfooter)
  { cols := body.headD [], rows := body.drop 1 }

/-- Model of a pandas read with `header=None` that keeps exactly the lines
at the listed positions: every kept line is a data row. -/
def pd_read_keep (keep : List Nat) (lines : List (List String)) : DFrame :=
  { cols := [], rows := keepOnly keep lines }

theorem pd_read_rows_length (skip : List Nat) (skipfooter : Nat)
    (lines : List (List String)) (hnd : skip.Nodup)
    (hb : ∀ x ∈ skip, x < lines.length) :
    (pd_read skip skipfooter lines).rows.length
      = lines.length - skip.length - skipfooter - 1 := by
  unfold pd_read
  simp only [List.length_drop, List.length_take]
  rw [length_keepRows skip lines hnd hb]
  omega

theorem pd_read_keep_rows_length (keep : List Nat)
    (lines : List (List String)) (hnd : keep.Nodup)
    (hb : ∀ x ∈ keep, x < lines.length) :
    (pd_read_keep keep lines).rows.length = keep.length := by
  unfold pd_read_keep
  exact length_keepOnly keep lines hnd hb

/-- Positional column slice `df.iloc[:, a:b]`. -/
def DFrame.colSlice (df : DFrame) (a b : Nat) : DFrame :=
  { cols := (df.cols.drop a).take (b - a),
    rows := df.rows.map (fun row => (row.drop a).take (b - a)) }

/-- The RMSmag attribute produced by `_get_head_obs` (tabs.py): the parsed
float when the RMSmag template matched, and the sentinel string when it
did not. -/
def rmsmag_attr (parsed : Option ℚ) : Sum ℚ String :=
  match parsed with
  | some m => Sum.inl m
  | none => Sum.inr "No data for RMSmag"

/-- The header skip list chosen by `_ast_obs_parser` (tabs.py): `[0..4]`
when the RMSmag attribute is the string sentinel, `[0..5]` when it is a
number. -/
def ast_obs_head (rmsmag : Sum ℚ String) : List Nat :=
  match rmsmag with
  | Sum.inr _ => [0, 1, 2, 3, 4]
  | Sum.inl _ => [0, 1, 2, 3, 4, 5]

/-- The body read `df_p` of `_ast_obs_parser`: skiprows is the header skip
list, the first remaining line is consumed as the pandas column header. -/
def ast_obs_df_p (rmsmag : Sum ℚ String) (lines : List (List String)) : DFrame :=
  pd_read (ast_obs_head rmsmag) 0 lines

/-- Radar footer length computed by `_ast_obs_parser`: zero without the
radar block marker, otherwise the row count of `df_p` minus the marker row
index. -/
def obs_radar_diff (df_p : DFrame) : Nat :=
  match get_indexes df_p "! Object" with
  | [] => 0
  | (r, _) :: _ => df_p.rows.length - r

/-- The detection read `df_obs` of `_get_opt_info` (tabs.py): fixed
skiprows `[0..5]` and skipfooter `diff`. -/
def obs_df_obs (lines : List (List String)) (diff : Nat) : DFrame :=
  pd_read [0, 1, 2, 3, 4, 5] diff lines

/-- Locations of the roving-observer marker in the column slice
`df_obs.iloc[:, 1:4]`. -/
def obs_v_indexes (lines : List (List String)) (diff : Nat) : List (Nat × String) :=
  get_indexes ((obs_df_obs lines diff).colSlice 1 4) "v"

/-- Locations of the satellite marker in the column slice
`df_obs.iloc[:, 1:4]`. -/
def obs_s_indexes (lines : List (List String)) (diff : Nat) : List (Nat × String) :=
  get_indexes ((obs_df_obs lines diff).colSlice 1 4) "s"

/-- Physical line numbers of the roving rows as computed by the source:
each detected row index plus the header length plus one. -/
def obs_v_rows (lines : List (List String)) (diff : Nat) (head : List Nat) : List Nat :=
  (obs_v_indexes lines diff).map (fun p => p.1 + head.length + 1)

/-- Physical line numbers of the satellite rows. -/
def obs_s_rows (lines : List (List String)) (diff : Nat) (head : List Nat) : List Nat :=
  (obs_s_indexes lines diff).map (fun p => p.1 + head.length + 1)

/-- Result of `_get_opt_info`: the optical table and the roving and
satellite tables, `none` standing for the human-readable sentinel string
substituted when no marked rows exist. -/
structure OptInfo where
  optical : DFrame
  roving : Option DFrame
  sat : Option DFrame

/-- Embedding of `_get_opt_info` (tabs.py) at the granularity of rows: the
three fixed-width re-reads keep rows one for one, so each table is modelled
by the lines its read keeps.  The roving and satellite reads keep exactly
the computed marked line numbers with no header; the optical read skips the
header lines, the marked lines, one pandas header line and the radar
footer. -/
def get_opt_info (lines : List (List String)) (diff : Nat) (head : List Nat) : OptInfo :=
  let v_indexes := obs_v_indexes lines diff
  let s_indexes := obs_s_indexes lines diff
  let v_rows := obs_v_rows lines diff head
  let s_rows := obs_s_rows lines diff head
  { optical := pd_read (head ++ v_rows ++ s_rows) diff lines
    roving := if v_indexes.isEmpty then none else some (pd_read_keep v_rows lines)
    sat := if s_indexes.isEmpty then none else some (pd_read_keep s_rows lines) }

/-- Row count of a possibly absent table: the sentinel counts zero rows. -/
def optRows : Option DFrame → Nat
  | none => 0
  | some df => df.rows.length

theorem obs_v_rows_ge (lines : List (List String)) (diff : Nat)
    (head : List Nat) (x : Nat) (hx : x ∈ obs_v_rows lines diff head) :
    head.length + 1 ≤ x := by
  unfold obs_v_rows at hx
  obtain ⟨p, -, hpx⟩ := List.mem_map.mp hx
  omega

theorem obs_s_rows_ge (lines : List (List String)) (diff : Nat)
    (head : List Nat) (x : Nat) (hx : x ∈ obs_s_rows lines diff head) :
    head.length + 1 ≤ x := by
  unfold obs_s_rows at hx
  obtain ⟨p, -, hpx⟩ := List.mem_map.mp hx
  omega

/-- Claim C2: on a well-formed observations document the three tables
produced by the observations parser partition the body, with or without a
radar footer: optical rows plus roving rows plus satellite rows equal the
total line count minus the header lines (the skip list plus the consumed
pandas header line) minus the radar footer length.  Well-formedness: the
header skip list is an initial segment of the naturals as in the source,
the marked line numbers are distinct, roving and satellite rows do not
overlap, marked line numbers stay inside the file, and the file is long
enough to hold header, marked rows, one header line and the footer. -/
theorem C2_observations_partition (lines : List (List String)) (diff : Nat)
    (head : List Nat)
    (hhead : head = List.range head.length)
    (hv : (obs_v_rows lines diff head).Nodup)
    (hs : (obs_s_rows lines diff head).Nodup)
    (hvs : ∀ x ∈ obs_v_rows lines diff head, x ∉ obs_s_rows lines diff head)
    (hb : ∀ x ∈ obs_v_rows lines diff head ++ obs_s_rows lines diff head,
      x < lines.length)
    (hslack : head.length + (obs_v_rows lines diff head).length
      + (obs_s_rows lines diff head).length + diff + 1 ≤ lines.length) :
    ((get_opt_info lines diff head).optical).rows.length
      + optRows ((get_opt_info lines diff head).roving)
      + optRows ((get_opt_info lines diff head).sat)
      = lines.length - (head.length + 1) - diff := by
  set V := obs_v_rows lines diff head with hVdef
  set S := obs_s_rows lines diff head with hSdef
  have hbV : ∀ x ∈ V, x < lines.length :=
    fun x hx => hb x (List.mem_append_left _ hx)
  have hbS : ∀ x ∈ S, x < lines.length :=
    fun x hx => hb x (List.mem_append_right _ hx)
  have hhead_lt : ∀ x ∈ head, x < head.length := by
    intro x hx
    rw [hhead] at hx
    exact List.mem_range.mp hx
  have hnd_head : head.Nodup := hhead ▸ List.nodup_range head.length
  have hdisj_hV : head.Disjoint V := by
    intro x hxh hxV
    have := obs_v_rows_ge lines diff head x hxV
    have := hhead_lt x hxh
    omega
  have hdisj_hS : head.Disjoint S := by
    intro x hxh hxS
    have := obs_s_rows_ge lines diff head x hxS
    have := hhead_lt x hxh
    omega
  have hnd_VS : (V ++ S).Nodup := hv.append hs hvs
  have hnd_all : (head ++ V ++ S).Nodup := by
    rw [List.append_assoc]
    refine hnd_head.append hnd_VS ?_
    intro x hxh hxVS
    rcases List.mem_append.mp hxVS with hxV | hxS
    · exact hdisj_hV hxh hxV
    · exact hdisj_hS hxh hxS
  have hb_all : ∀ x ∈ head ++ V ++ S, x < lines.length := by
    intro x hx
    rw [List.append_assoc] at hx
    rcases List.mem_append.mp hx with hxh | hxVS
    · have := hhead_lt x hxh
      omega
    · exact hb x hxVS
  have hopt : ((get_opt_info lines diff head).optical).rows.length
      = lines.length - (head.length + V.length + S.length) - diff - 1 := by
    show (pd_read (head ++ V ++ S) diff lines).rows.length = _
    rw [pd_read_rows_length (head ++ V ++ S) diff lines hnd_all hb_all]
    simp only [List.length_append]
  have hrov : optRows ((get_opt_info lines diff head).roving) = V.length := by
    show optRows (if (obs_v_indexes lines diff).isEmpty then none
      else some (pd_read_keep V lines)) = V.length
    by_cases hemp : (obs_v_indexes lines diff).isEmpty
    · rw [if_pos hemp]
      have : V = [] := by
        rw [hVdef]
        unfold obs_v_rows
        rw [List.isEmpty_iff.mp hemp]
        rfl
      rw [this]
      rfl
    · rw [if_neg hemp]
      show (pd_read_keep V lines).rows.length = V.length
      exact pd_read_keep_rows_length V lines hv hbV
  have hsat : optRows ((get_opt_info lines diff head).sat) = S.length := by
    show optRows (if (obs_s_indexes lines diff).isEmpty then none
      else some (pd_read_keep S lines)) = S.length
    by_cases hemp : (obs_s_indexes lines diff).isEmpty
    · rw [if_pos hemp]
      have : S = [] := by
        rw [hSdef]
        unfold obs_s_rows
        rw [List.isEmpty_iff.mp hemp]
        rfl
      rw [this]
      rfl
    · rw [if_neg hemp]
      show (pd_read_keep S lines).rows.length = S.length
      exact pd_read_keep_rows_length S lines hs hbS
  rw [hopt, hrov, hsat]
  omega

/-- Concrete observations file used as the C2 witness: six skipped header
lines, one pandas column-header line, then one ordinary optical row, one
roving row and one satellite row. -/
def exObsLines : List (List String) :=
  [["h"], ["h"], ["h"], ["h"], ["h"], ["h"],
   ["Design", "K", "T", "N"],
   ["a1", "O", "C", "1"],
   ["a2", "O", "v", "1"],
   ["a3", "O", "s", "1"]]

/-- Witness for C2 at `exObsLines` with head `[0..5]` and no radar block:
one optical row plus one roving row plus one satellite row equals ten lines
minus seven header lines minus zero footer lines. -/
theorem C2_observations_partition_witness :
    ((get_opt_info exObsLines 0 [0, 1, 2, 3, 4, 5]).optical).rows.length
      + optRows ((get_opt_info exObsLines 0 [0, 1, 2, 3, 4, 5]).roving)
      + optRows ((get_opt_info exObsLines 0 [0, 1, 2, 3, 4, 5]).sat)
      = exObsLines.length - (6 + 1) - 0 :=
  C2_observations_partition exObsLines 0 [0, 1, 2, 3, 4, 5]
    (by decide) (by decide) (by decide) (by decide) (by decide) (by decide)

/-- Claim C6 as stated is false: when RMS magnitude is absent (the string
sentinel), the skip list passed to the body read has five entries, not
four. -/
theorem C6_counterexample :
    ¬ ((ast_obs_head (rmsmag_attr none)).length = 4) := by decide

/-- Claim C6 as amended: the body read of the observations parser skips
five header lines when the RMS-magnitude field is absent and six when it
is present (one further line is then consumed as the pandas column
header), so on a file of at least seven lines the body has the total line
count minus six, respectively minus seven, rows. -/
theorem C6_head_skiprows_amended (lines : List (List String)) (q : ℚ)
    (hlen : 7 ≤ lines.length) :
    (ast_obs_head (rmsmag_attr none)).length = 5
    ∧ (ast_obs_head (rmsmag_attr (some q))).length = 6
    ∧ (ast_obs_df_p (rmsmag_attr none) lines).rows.length = lines.length - 6
    ∧ (ast_obs_df_p (rmsmag_attr (some q)) lines).rows.length = lines.length - 7 := by
  refine ⟨rfl, rfl, ?_, ?_⟩
  · show (pd_read [0, 1, 2, 3, 4] 0 lines).rows.length = lines.length - 6
    rw [pd_read_rows_length [0, 1, 2, 3, 4] 0 lines (by decide) ?_]
    · simp only [List.length_cons, List.length_nil]
      omega
    · intro x hx
      fin_cases hx <;> omega
  · show (pd_read [0, 1, 2, 3, 4, 5] 0 lines).rows.length = lines.length - 7
    rw [pd_read_rows_length [0, 1, 2, 3, 4, 5] 0 lines (by decide) ?_]
    · simp only [List.length_cons, List.length_nil]
      omega
    · intro x hx
      fin_cases hx <;> omega

/-- Witness for the amended C6 theorem on the concrete ten-line
observations file. -/
theorem C6_head_skiprows_witness :
    (ast_obs_df_p (rmsmag_attr none) exObsLines).rows.length
      = exObsLines.length - 6 :=
  (C6_head_skiprows_amended exObsLines 0 (by decide)).2.2.1

/-- The blank-paragraph marker whose presence signals the additional-note
block of an impacts document. -/
def impacts_marker : String := "<p> </p>"

/-- Footer length chosen by `_impacts_parser` (tabs.py): 12 rows without
the blank-paragraph marker, 21 with it. -/
def impacts_footer_num (df_check : DFrame) : Nat :=
  if get_indexes df_check impacts_marker = [] then 12 else 21

/-- Main data block read of `_impacts_parser`: skiprows `[0, 2, 3, 4]` and
the skipfooter computed from the marker check. -/
def impacts_main_read (df_check : DFrame) (lines : List (List String)) : DFrame :=
  pd_read [0, 2, 3, 4] (impacts_footer_num df_check) lines

/-- Shift j applied by `_get_footer` to every footer access: 0 without the
marker, 6 with it. -/
def impacts_footer_j (df_txt : DFrame) : Int :=
  if get_indexes df_txt impacts_marker = [] then 0 else 6

/-- Negative pandas iloc access into a list of strings: position counted
from the end. -/
def ilocNeg (xs : List String) (k : Int) : String :=
  xs.getD (((xs.length : Int) + k).toNat) ""

/-- First column of the footer frame after dropna(how = all): rows whose
cells are all NaN are dropped, each remaining row contributes its first
cell. -/
def impacts_col0 (df_txt : DFrame) : List String :=
  (df_txt.rows.filter (fun r => ! r.all (fun c => c == ""))).map
    (fun r => r.getD 0 "")

/-- The end-relative offsets at which `_get_footer` reads for a given
shift j: observation counts, arc dates, computation date, then the four
info lines. -/
def impacts_footer_offsets (j : Int) : List Int :=
  [-7 - j, -6 - j, -1 - j, -5 - j, -4 - j, -3 - j, -2 - j]

/-- The raw footer lines read by `_get_footer`, in the order of
`impacts_footer_offsets`. -/
def impacts_footer_reads (df_txt : DFrame) (j : Int) : List String :=
  (impacts_footer_offsets j).map (fun k => ilocNeg (impacts_col0 df_txt) k)

/-- The footer fields extracted by `_get_footer` (tabs.py). -/
structure ImpactsFooter where
  obs : String
  arc : String
  comp : String
  info : List String
deriving DecidableEq, Repr

/-- Embedding of `_get_footer` (tabs.py): the observation-count line cut
before its and-clause, the arc line, the computation date (third
equals-separated token, stripped) and the four info lines, all read at the
fixed end-relative offsets shifted by j. -/
def impacts_get_footer (df_txt : DFrame) : ImpactsFooter :=
  let j := impacts_footer_j df_txt
  let col0 := impacts_col0 df_txt
  { obs := ((ilocNeg col0 (-7 - j)).splitOn " and").headD ""
    arc := ilocNeg col0 (-6 - j)
    comp := (((ilocNeg col0 (-1 - j)).splitOn "=").getD 2 "").trim
    info := [ilocNeg col0 (-5 - j), ilocNeg col0 (-4 - j),
             ilocNeg col0 (-3 - j), ilocNeg col0 (-2 - j)] }

/-- Claim C3: the impacts parser branches on the presence of the literal
blank-paragraph marker.  Absent, the main block is read with footer length
12 and the footer fields come from the unshifted offsets (j equal zero);
present, the footer length is 21 and every extraction offset is shifted by
exactly 6 lines relative to the absent case.  The final conjunct ties the
extracted fields to the reads at the shifted offsets. -/
theorem C3_impacts_footer_shift (df_check df_txt : DFrame)
    (lines : List (List String)) :
    (get_indexes df_check impacts_marker = [] →
      impacts_footer_num df_check = 12
      ∧ impacts_main_read df_check lines = pd_read [0, 2, 3, 4] 12 lines)
    ∧ (get_indexes df_check impacts_marker ≠ [] →
      impacts_footer_num df_check = 21
      ∧ impacts_main_read df_check lines = pd_read [0, 2, 3, 4] 21 lines)
    ∧ (get_indexes df_txt impacts_marker = [] → impacts_footer_j df_txt = 0)
    ∧ (get_indexes df_txt impacts_marker ≠ [] →
      impacts_footer_j df_txt = 6
      ∧ impacts_footer_offsets (impacts_footer_j df_txt)
        = (impacts_footer_offsets 0).map (fun x => x - 6))
    ∧ impacts_get_footer df_txt =
      { obs := (((impacts_footer_reads df_txt (impacts_footer_j df_txt)).getD 0
          "").splitOn " and").headD ""
        arc := (impacts_footer_reads df_txt (impacts_footer_j df_txt)).getD 1 ""
        comp := ((((impacts_footer_reads df_txt (impacts_footer_j df_txt)).getD 2
          "").splitOn "=").getD 2 "").trim
        info := [(impacts_footer_reads df_txt (impacts_footer_j df_txt)).getD 3 "",
                 (impacts_footer_reads df_txt (impacts_footer_j df_txt)).getD 4 "",
                 (impacts_footer_reads df_txt (impacts_footer_j df_txt)).getD 5 "",
                 (impacts_footer_reads df_txt (impacts_footer_j df_txt)).getD 6 ""] } := by
  refine ⟨?_, ?_, ?_, ?_, ?_⟩
  · intro habs
    unfold impacts_main_read impacts_footer_num
    rw [if_pos habs]
    exact ⟨rfl, rfl⟩
  · intro hpres
    unfold impacts_main_read impacts_footer_num
    rw [if_neg hpres]
    exact ⟨rfl, rfl⟩
  · intro habs
    unfold impacts_footer_j
    rw [if_pos habs]
  · intro hpres
    unfold impacts_footer_j
    rw [if_neg hpres]
    exact ⟨rfl, by decide⟩
  · rfl

/-- Concrete footer frame without the marker, for the C3 witness. -/
def exImpactsNoNote : DFrame :=
  { cols := ["A"], rows := [["data"], ["Based on"], ["from"]] }

/-- Concrete footer frame with the marker, for the C3 witness. -/
def exImpactsWithNote : DFrame :=
  { cols := ["A"], rows := [["data"], ["<p> </p>"], ["note"]] }

/-- Witness for C3 on concrete frames with and without the marker. -/
theorem C3_impacts_footer_shift_witness :
    impacts_footer_num exImpactsNoNote = 12
    ∧ impacts_footer_num exImpactsWithNote = 21
    ∧ impacts_footer_j exImpactsWithNote = 6 :=
  ⟨((C3_impacts_footer_shift exImpactsNoNote exImpactsNoNote []).1 (by decide)).1,
   ((C3_impacts_footer_shift exImpactsWithNote exImpactsWithNote []).2.1 (by decide)).1,
   (((C3_impacts_footer_shift exImpactsWithNote exImpactsWithNote []).2.2.2.1) (by decide)).1⟩

/-- The two orbit-element naming schemes of `_get_matrix`. -/
inductive OrbitElem
  | keplerian
  | equinoctial
deriving DecidableEq, Repr

/-- The per-element variable names used for matrix row and column labels
(`mat_var` in tabs.py). -/
def mat_var : OrbitElem → List String
  | .keplerian => ["a", "e", "i", "long. node", "arg. peric", "M"]
  | .equinoctial => ["a", "e*sin(LP)", "e*cos(LP)", "tan(i/2)*sin(LN)",
      "tan(i/2)*cos(LN)", "mean long."]

/-- Variable name at position k of the scheme. -/
def mv (oe : OrbitElem) (k : Nat) : String := (mat_var oe).getD k ""

/-- The matrix-kind dictionary of `_get_matrix`. -/
def matrix_dict : List (String × String) :=
  [("cov", "COV"), ("cor", "COR"), ("nor", "NOR")]

/-- Python-level failures of `_get_matrix`: IndexError from indexing an
empty search result, ValueError from an unknown matrix name, and the
unbound-local failure when no branch assigns the result. -/
inductive PyError
  | indexError
  | valueError
  | unboundLocal
deriving DecidableEq, Repr

/-- A pandas DataFrame built from a dict literal: columns in key insertion
order, with Python duplicate-key overwriting, plus the row index labels. -/
structure MatFrame where
  cols : List (String × List String)
  index : List String
deriving DecidableEq, Repr

/-- Result of `_get_matrix`: either the sentinel string or a matrix
frame. -/
inductive MatResult
  | sentinel (msg : String)
  | frame (m : MatFrame)
deriving DecidableEq, Repr

/-- One step of building a Python dict: a duplicate key overwrites the
stored value in place, a fresh key is appended. -/
def dictInsert (d : List (String × List String)) (k : String)
    (v : List String) : List (String × List String) :=
  if d.any (fun p => p.1 == k) then
    d.map (fun p => if p.1 == k then (k, v) else p)
  else d ++ [(k, v)]

/-- A Python dict literal: keys inserted left to right. -/
def dictOfPairs (ps : List (String × List String)) :
    List (String × List String) :=
  ps.foldl (fun d p => dictInsert d p.1 p.2) []

/-- The dimension-6 dict literal of `_get_matrix`: six entries keyed by
the six element names, each filled with the triangular cells at the listed
offsets from the anchor row i. -/
def mat6_pairs (dfd : DFrame) (i : Nat) (oe : OrbitElem) :
    List (String × List String) :=
  let d := fun r c => dfd.cell r c
  [(mv oe 0, [d i 1, d i 2, d i 3, d (i+1) 1, d (i+1) 2, d (i+1) 3]),
   (mv oe 1, [d i 2, d (i+2) 1, d (i+2) 2, d (i+2) 3, d (i+3) 1, d (i+3) 2]),
   (mv oe 2, [d i 3, d (i+2) 2, d (i+3) 3, d (i+4) 1, d (i+4) 2, d (i+4) 3]),
   (mv oe 3, [d (i+1) 1, d (i+2) 3, d (i+4) 1, d (i+5) 1, d (i+5) 2, d (i+5) 3]),
   (mv oe 4, [d (i+1) 2, d (i+3) 1, d (i+4) 2, d (i+5) 2, d (i+6) 1, d (i+6) 2]),
   (mv oe 5, [d (i+1) 3, d (i+3) 2, d (i+4) 3, d (i+5) 3, d (i+6) 2, d (i+6) 3])]

/-- The dimension-6 matrix frame of `_get_matrix`. -/
def mat6 (dfd : DFrame) (i : Nat) (oe : OrbitElem) : MatFrame :=
  { cols := dictOfPairs (mat6_pairs dfd i oe), index := mat_var oe }

/-- The dimension-7 dict literal of `_get_matrix`: the six element names
plus the single non-gravitational parameter name from the caller. -/
def mat7_pairs (dfd : DFrame) (i : Nat) (oe : OrbitElem) (ngr : String) :
    List (String × List String) :=
  let d := fun r c => dfd.cell r c
  [(mv oe 0, [d i 1, d i 2, d i 3, d (i+1) 1, d (i+1) 2, d (i+1) 3, d (i+2) 1]),
   (mv oe 1, [d i 2, d (i+2) 2, d (i+2) 3, d (i+3) 1, d (i+3) 2, d (i+3) 3, d (i+4) 1]),
   (mv oe 2, [d i 3, d (i+2) 3, d (i+4) 2, d (i+4) 3, d (i+5) 1, d (i+5) 2, d (i+5) 3]),
   (mv oe 3, [d (i+1) 1, d (i+3) 1, d (i+4) 3, d (i+6) 1, d (i+6) 2, d (i+6) 3, d (i+7) 1]),
   (mv oe 4, [d (i+1) 2, d (i+3) 2, d (i+5) 1, d (i+6) 2, d (i+7) 2, d (i+7) 3, d (i+8) 1]),
   (mv oe 5, [d (i+1) 3, d (i+3) 3, d (i+5) 2, d (i+6) 3, d (i+7) 3, d (i+8) 2, d (i+8) 3]),
   (ngr, [d (i+2) 1, d (i+4) 1, d (i+5) 3, d (i+7) 1, d (i+8) 1, d (i+8) 3, d (i+9) 1])]

/-- The dimension-7 matrix frame of `_get_matrix`. -/
def mat7 (dfd : DFrame) (i : Nat) (oe : OrbitElem) (ngr : String) : MatFrame :=
  { cols := dictOfPairs (mat7_pairs dfd i oe ngr), index := mat_var oe ++ [ngr] }

/-- The dimension-8 dict literal of `_get_matrix`, transcribing the source:
the keys of the five middle entries all reuse the sixth element name
(`mat_var[orbit_element][5]` in the source), so Python duplicate-key
semantics collapses them into one column. -/
def mat8_pairs (dfd : DFrame) (i : Nat) (oe : OrbitElem) :
    List (String × List String) :=
  let d := fun r c => dfd.cell r c
  [(mv oe 0, [d i 1, d i 2, d i 3, d (i+1) 1, d (i+1) 2, d (i+1) 3,
     d (i+2) 1, d (i+2) 2]),
   (mv oe 5, [d i 2, d (i+2) 3, d (i+3) 1, d (i+3) 2, d (i+3) 3,
     d (i+4) 1, d (i+4) 2, d (i+4) 3]),
   (mv oe 5, [d i 3, d (i+3) 1, d (i+5) 1, d (i+5) 2, d (i+5) 3,
     d (i+6) 1, d (i+6) 2, d (i+6) 3]),
   (mv oe 5, [d (i+1) 1, d (i+3) 2, d (i+5) 2, d (i+7) 1, d (i+7) 2,
     d (i+7) 3, d (i+8) 1, d (i+8) 2]),
   (mv oe 5, [d (i+1) 2, d (i+3) 3, d (i+5) 3, d (i+7) 2, d (i+8) 3,
     d (i+9) 1, d (i+9) 2, d (i+9) 3]),
   (mv oe 5, [d (i+1) 3, d (i+4) 1, d (i+6) 1, d (i+7) 3, d (i+9) 1,
     d (i+10) 1, d (i+10) 2, d (i+10) 3]),
   ("Area-to-mass ratio", [d (i+2) 1, d (i+4) 2, d (i+6) 2, d (i+8) 1,
     d (i+9) 2, d (i+10) 2, d (i+11) 1, d (i+11) 2]),
   ("Yarkovsky parameter", [d (i+2) 2, d (i+4) 3, d (i+6) 3, d (i+8) 2,
     d (i+9) 3, d (i+10) 3, d (i+11) 2, d (i+11) 3])]

/-- The dimension-8 matrix frame of `_get_matrix`. -/
def mat8 (dfd : DFrame) (i : Nat) (oe : OrbitElem) : MatFrame :=
  { cols := dictOfPairs (mat8_pairs dfd i oe),
    index := mat_var oe ++ ["Area-to-mass ratio", "Yarkovsky parameter"] }

theorem foldl_dictInsert_of_nodup (ps acc : List (String × List String))
    (h : ((acc ++ ps).map Prod.fst).Nodup) :
    ps.foldl (fun d p => dictInsert d p.1 p.2) acc = acc ++ ps := by
  induction ps generalizing acc with
  | nil => simp
  | cons q ps ih =>
    have h' : (acc.map Prod.fst ++ q.1 :: ps.map Prod.fst).Nodup := by
      simpa using h
    have hq : q.1 ∉ acc.map Prod.fst := fun hmem =>
      (List.nodup_append.mp h').2.2 hmem (List.mem_cons_self _ _)
    have hins : dictInsert acc q.1 q.2 = acc ++ [q] := by
      unfold dictInsert
      rw [if_neg (by
        rw [List.any_eq_true]
        rintro ⟨p, hp, hpq⟩
        rw [beq_iff_eq] at hpq
        exact hq (List.mem_map.mpr ⟨p, hp, hpq⟩))]
    have hmid : (acc ++ [q]) ++ ps = acc ++ q :: ps := by simp
    rw [List.foldl_cons, hins, ih (acc ++ [q]) (by rw [hmid]; exact h), hmid]

theorem dictOfPairs_of_nodup (ps : List (String × List String))
    (h : (ps.map Prod.fst).Nodup) : dictOfPairs ps = ps := by
  unfold dictOfPairs
  have hres := foldl_dictInsert_of_nodup ps [] (by simpa using h)
  simpa using hres

/-- Embedding of `OrbitProperties._get_matrix` (tabs.py).  The source
indexes the content search result before checking it, so an empty search
raises IndexError; the sentinel branch fires only when the anchor row
index is zero (the falsy check `if not i`); an unknown matrix name raises
ValueError; a dimension other than 6, 7 or 8 leaves the result variable
unassigned, raising at the return. -/
def get_matrix (dfd : DFrame) (matrix_name : String) (dimension : Nat)
    (orbit_element : OrbitElem) (ngr : String) : Except PyError MatResult :=
  match matrix_dict.lookup matrix_name with
  | none => .error .valueError
  | some anchor =>
    match get_indexes dfd anchor with
    | [] => .error .indexError
    | (i, _) :: _ =>
      if i = 0 then
        .ok (.sentinel ("There is no " ++ anchor ++ "matrix for this object"))
      else if dimension = 6 then
        .ok (.frame (mat6 dfd i orbit_element))
      else if dimension = 7 then
        .ok (.frame (mat7 dfd i orbit_element ngr))
      else if dimension = 8 then
        .ok (.frame (mat8 dfd i orbit_element))
      else .error .unboundLocal

/-- Columns of a matrix result; failures and the sentinel have none. -/
def matCols : Except PyError MatResult → List (String × List String)
  | .ok (.frame m) => m.cols
  | _ => []

/-- Index labels of a matrix result. -/
def matIndex : Except PyError MatResult → List String
  | .ok (.frame m) => m.index
  | _ => []

/-- Positional cell of a matrix result: row r of column c. -/
def matCell (res : Except PyError MatResult) (r c : Nat) : String :=
  ((matCols res).getD c ("", [])).2.getD r ""

theorem get_matrix_found (dfd : DFrame) (name anchor cn : String)
    (dimension : Nat) (oe : OrbitElem) (ngr : String) (i : Nat)
    (tl : List (Nat × String))
    (hanchor : matrix_dict.lookup name = some anchor)
    (hfind : get_indexes dfd anchor = (i, cn) :: tl) :
    get_matrix dfd name dimension oe ngr =
      if i = 0 then
        .ok (.sentinel ("There is no " ++ anchor ++ "matrix for this object"))
      else if dimension = 6 then .ok (.frame (mat6 dfd i oe))
      else if dimension = 7 then .ok (.frame (mat7 dfd i oe ngr))
      else if dimension = 8 then .ok (.frame (mat8 dfd i oe))
      else .error .unboundLocal := by
  unfold get_matrix
  simp only [hanchor, hfind]

theorem mat6_pairs_map_fst (dfd : DFrame) (i : Nat) (oe : OrbitElem) :
    (mat6_pairs dfd i oe).map Prod.fst = mat_var oe := by
  cases oe <;> rfl

theorem mat8_cols_map_fst (dfd : DFrame) (i : Nat) (oe : OrbitElem) :
    (mat8 dfd i oe).cols.map Prod.fst
      = [mv oe 0, mv oe 5, "Area-to-mass ratio", "Yarkovsky parameter"] := by
  cases oe <;>
    simp [mat8, mat8_pairs, dictOfPairs, dictInsert, mv, mat_var]

/-- Claim C1: for dimension 6 and either the covariance or the correlation
kind, the matrix reconstructed from the triangular cells at offsets from a
located anchor (anchor row nonzero, so the build branch runs) is exactly 6
columns of 6 cells with 6 row labels, and positionally symmetric: cell
(r, c) equals cell (c, r) for all r, c below 6. -/
theorem C1_matrix6_symmetric (dfd : DFrame) (name anchor cn : String)
    (i : Nat) (tl : List (Nat × String)) (oe : OrbitElem) (ngr : String)
    (hname : name = "cov" ∨ name = "cor")
    (hanchor : matrix_dict.lookup name = some anchor)
    (hfind : get_indexes dfd anchor = (i, cn) :: tl)
    (hi : i ≠ 0) :
    (matCols (get_matrix dfd name 6 oe ngr)).length = 6
    ∧ (∀ k < 6, ((matCols (get_matrix dfd name 6 oe ngr)).getD k
        ("", [])).2.length = 6)
    ∧ (matIndex (get_matrix dfd name 6 oe ngr)).length = 6
    ∧ (∀ r < 6, ∀ c < 6,
        matCell (get_matrix dfd name 6 oe ngr) r c
          = matCell (get_matrix dfd name 6 oe ngr) c r) := by
  have hR : get_matrix dfd name 6 oe ngr
      = .ok (.frame (mat6 dfd i oe)) := by
    rw [get_matrix_found dfd name anchor cn 6 oe ngr i tl hanchor hfind,
      if_neg hi, if_pos rfl]
  have hcols : matCols (get_matrix dfd name 6 oe ngr) = mat6_pairs dfd i oe := by
    rw [hR]
    show dictOfPairs (mat6_pairs dfd i oe) = mat6_pairs dfd i oe
    exact dictOfPairs_of_nodup _ (by
      rw [mat6_pairs_map_fst dfd i oe]
      cases oe <;> decide)
  refine ⟨?_, ?_, ?_, ?_⟩
  · rw [hcols]
    rfl
  · intro k hk
    rw [hcols]
    interval_cases k <;> rfl
  · rw [hR]
    show (mat_var oe).length = 6
    cases oe <;> rfl
  · intro r hr c hc
    unfold matCell
    rw [hcols]
    interval_cases r <;> interval_cases c <;> rfl

/-- Claim C10: a dimension-8 invocation with a located anchor produces a
frame with 8 row labels but only 4 column labels, because the five middle
dict keys all reuse the sixth element name and collapse; the result is
never 8 columns wide. -/
theorem C10_matrix8_collapsed_columns (dfd : DFrame) (name anchor cn : String)
    (i : Nat) (tl : List (Nat × String)) (oe : OrbitElem) (ngr : String)
    (hanchor : matrix_dict.lookup name = some anchor)
    (hfind : get_indexes dfd anchor = (i, cn) :: tl)
    (hi : i ≠ 0) :
    (matIndex (get_matrix dfd name 8 oe ngr)).length = 8
    ∧ (matCols (get_matrix dfd name 8 oe ngr)).map Prod.fst
        = [mv oe 0, mv oe 5, "Area-to-mass ratio", "Yarkovsky parameter"]
    ∧ (matCols (get_matrix dfd name 8 oe ngr)).length = 4
    ∧ (matCols (get_matrix dfd name 8 oe ngr)).length ≠ 8 := by
  have hR : get_matrix dfd name 8 oe ngr
      = .ok (.frame (mat8 dfd i oe)) := by
    rw [get_matrix_found dfd name anchor cn 8 oe ngr i tl hanchor hfind,
      if_neg hi, if_neg (by decide), if_neg (by decide), if_pos rfl]
  have hmap := mat8_cols_map_fst dfd i oe
  have hlen : (mat8 dfd i oe).cols.length = 4 := by
    have := congrArg List.length hmap
    simpa using this
  refine ⟨?_, ?_, ?_, ?_⟩
  · rw [hR]
    show (mat_var oe ++ ["Area-to-mass ratio", "Yarkovsky parameter"]).length = 8
    cases oe <;> rfl
  · rw [hR]
    exact hmap
  · rw [hR]
    exact hlen
  · rw [hR]
    show (mat8 dfd i oe).cols.length ≠ 8
    rw [hlen]
    omega

/-- A table in which no matrix anchor occurs at all. -/
def exNoMatrix : DFrame := { cols := ["A"], rows := [["x"], ["y"]] }

/-- A table whose matrix anchor sits on row zero. -/
def exMatrixAtZero : DFrame := { cols := ["A"], rows := [["COV"], ["r"]] }

/-- Claim C5 is a code bug: when the requested matrix is absent and the
content search returns the empty list, `_get_matrix` indexes that empty
list and raises IndexError instead of returning the matrix-unavailable
sentinel; the sentinel branch fires only in the unintended case of an
anchor found on row zero (the falsy check `if not i`). -/
theorem C5_absent_matrix_raises :
    get_matrix exNoMatrix "cov" 6 .keplerian "p" = .error .indexError
    ∧ get_matrix exNoMatrix "cor" 7 .keplerian "p" = .error .indexError
    ∧ get_matrix exNoMatrix "nor" 8 .equinoctial "p" = .error .indexError
    ∧ get_matrix exMatrixAtZero "cov" 6 .keplerian "p"
        = .ok (.sentinel "There is no COVmatrix for this object") :=
  ⟨rfl, rfl, rfl, rfl⟩

/-- Concrete orbit table for the matrix witnesses: the anchor sits at row
1, column 0, with twelve further rows of cells. -/
def exMatDf : DFrame :=
  { cols := ["c0", "c1", "c2", "c3"],
    rows := [
      ["head", "x", "y", "z"],
      ["COV", "v11", "v12", "v13"],
      ["r02", "v14", "v15", "v16"],
      ["r03", "v22", "v23", "v24"],
      ["r04", "v25", "v26", "v33"],
      ["r05", "v34", "v35", "v36"],
      ["r06", "v44", "v45", "v46"],
      ["r07", "v55", "v56", "v66"],
      ["r08", "w1", "w2", "w3"],
      ["r09", "w4", "w5", "w6"],
      ["r10", "w7", "w8", "w9"],
      ["r11", "u1", "u2", "u3"],
      ["r12", "u4", "u5", "u6"]] }

/-- Witness for C1 on the concrete orbit table. -/
theorem C1_matrix6_symmetric_witness :
    (matCols (get_matrix exMatDf "cov" 6 .keplerian "p")).length = 6
    ∧ matCell (get_matrix exMatDf "cov" 6 .keplerian "p") 0 1
        = matCell (get_matrix exMatDf "cov" 6 .keplerian "p") 1 0 :=
  have h := C1_matrix6_symmetric exMatDf "cov" "COV" "c0" 1 [] .keplerian "p"
    (Or.inl rfl) rfl (by decide) (by decide)
  ⟨h.1, h.2.2.2 0 (by omega) 1 (by omega)⟩

/-- Witness for C10 on the concrete orbit table. -/
theorem C10_matrix8_collapsed_witness :
    (matCols (get_matrix exMatDf "cov" 8 .equinoctial "p")).length = 4
    ∧ (matIndex (get_matrix exMatDf "cov" 8 .equinoctial "p")).length = 8 :=
  have h := C10_matrix8_collapsed_columns exMatDf "cov" "COV" "c0" 1 []
    .equinoctial "p" rfl (by decide) (by decide)
  ⟨h.2.2.1, h.1⟩

/-- The list dictionary of `get_list_url` (lists.py). -/
def lists_dict : List (String × String) :=
  [("nea_list", "allneo.lst"),
   ("updated_nea", "updated_nea.lst"),
   ("monthly_update", "monthly_update.done"),
   ("risk_list", "esa_risk_list"),
   ("risk_list_special", "esa_special_risk_list"),
   ("close_appr_upcoming", "esa_upcoming_close_app"),
   ("close_appr_recent", "esa_recent_close_app"),
   ("priority_list", "esa_priority_neo_list"),
   ("priority_list_faint", "esa_faint_neo_list"),
   ("close_encounter", "close_encounter2.txt"),
   ("impacted_objects", "impactedObjectsList.txt")]

/-- The KeyError message of `get_list_url` enumerating the valid names. -/
def lists_key_error : String :=
  "Valid list names are nea_list, updated_nea, monthly_update, risk_list, risk_list_special, close_appr_upcoming, close_appr_recent, priority_list, priority_list_faint, close_encounter and impacted_objects"

/-- Embedding of `get_list_url` (lists.py): a known name maps to its fixed
remote filename, an unknown name raises KeyError with the enumerating
message. -/
def get_list_url (list_name : String) : Except String String :=
  match lists_dict.lookup list_name with
  | none => .error lists_key_error
  | some url => .ok url

/-- Substring test on character lists, used to state that the error
message mentions every valid identifier. -/
def containsSub : List Char → List Char → Bool
  | [], needle => needle.isEmpty
  | c :: t, needle => needle.isPrefixOf (c :: t) || containsSub t needle

/-- Claim C8 as stated is false: the resolver maps eleven list
identifiers, not nine. -/
theorem C8_counterexample : ¬ ((lists_dict.map Prod.fst).length = 9) := by
  decide

/-- Claim C8 as amended: the resolver maps exactly eleven identifiers,
injectively, to the documented fixed filenames (in particular nea_list to
allneo.lst and risk_list to esa_risk_list); the KeyError message mentions
every valid identifier; and every string outside the key set raises that
error. -/
theorem C8_resolver_amended :
    (lists_dict.map Prod.fst).length = 11
    ∧ (lists_dict.map Prod.fst).Nodup
    ∧ (lists_dict.map Prod.snd).Nodup
    ∧ get_list_url "nea_list" = .ok "allneo.lst"
    ∧ get_list_url "risk_list" = .ok "esa_risk_list"
    ∧ (∀ p ∈ lists_dict, containsSub lists_key_error.data p.1.data = true)
    ∧ (∀ s : String, s ∉ lists_dict.map Prod.fst →
        get_list_url s = .error lists_key_error) := by
  refine ⟨by decide, by decide, by decide, rfl, rfl, by decide, ?_⟩
  intro s hs
  unfold get_list_url
  rw [List.lookup_eq_none_iff.mpr ?_]
  intro p hp
  rw [bne_iff_ne]
  intro heq
  exact hs (List.mem_map.mpr ⟨p, hp, heq.symm⟩)

/-- Witness for the amended C8 theorem: an unknown identifier raises the
enumerating KeyError. -/
theorem C8_resolver_amended_witness :
    get_list_url "neo_list" = .error lists_key_error :=
  C8_resolver_amended.2.2.2.2.2.2 "neo_list" (by decide)

/-- Failures of `parse_clo` (lists.py): the transient-server
ConnectionError, the pandas column-assignment length failure, and a date
conversion failure. -/
inductive CloError
  | connectionError
  | columnLengthError
  | dateError
deriving DecidableEq, Repr

/-- The ten canonical close-approach column names assigned by
`parse_clo`. -/
def clo_columns : List String :=
  ["Object Name", "Date", "Miss Distance in km", "Miss Distance in au",
   "Miss Distance in LD", "Diameter in m", "*=Yes", "H", "Max Bright",
   "Rel. vel in km/s"]

/-- Embedding of `parse_clo` (lists.py) on the resolved frame: at most one
resolved column raises ConnectionError; otherwise cells and column names
are stripped, the trailing decorative column is dropped, the ten canonical
names are assigned (a pandas failure if the count differs), and the Date
column is converted by the composite to_datetime plus decimal-year map
`to_dec`, whose failure on any cell is a date error. -/
def parse_clo (to_dec : String → Option String) (neocc_lst : DFrame) :
    Except CloError DFrame :=
  if neocc_lst.cols.length ≤ 1 then .error .connectionError
  else
    let stripped : DFrame :=
      { cols := neocc_lst.cols.map String.trim,
        rows := neocc_lst.rows.map (fun r => r.map String.trim) }
    let dropped : DFrame :=
      { cols := stripped.cols.dropLast,
        rows := stripped.rows.map List.dropLast }
    if dropped.cols.length = clo_columns.length then
      match dropped.rows.mapM (fun r =>
          (to_dec (r.getD 1 "")).map (fun v => r.set 1 v)) with
      | none => .error .dateError
      | some converted => .ok { cols := clo_columns, rows := converted }
    else .error .columnLengthError

/-- Claim C7: `parse_clo` raises the transient-server-error condition (a
kind distinct from the other failures) exactly when the payload resolves
to at most one column. -/
theorem C7_clo_connection_error (to_dec : String → Option String)
    (df : DFrame) :
    parse_clo to_dec df = .error .connectionError ↔ df.cols.length ≤ 1 := by
  constructor
  · intro h
    by_contra hgt
    unfold parse_clo at h
    rw [if_neg hgt] at h
    by_cases hc : (df.cols.map String.trim).dropLast.length = clo_columns.length
    · rw [if_pos hc] at h
      rcases hm : (df.rows.map (fun r => r.map String.trim)).map
          List.dropLast |>.mapM (fun r =>
            (to_dec (r.getD 1 "")).map (fun v => r.set 1 v)) with _ | converted
      · rw [hm] at h
        simp at h
      · rw [hm] at h
        simp at h
    · rw [if_neg hc] at h
      simp at h
  · intro h
    unfold parse_clo
    rw [if_pos h]

/-- A degenerate single-column close-approach payload. -/
def exCloDegenerate : DFrame := { cols := ["all"], rows := [["x"]] }

/-- Witness for C7: the degenerate single-column payload raises the
transient-server-error condition. -/
theorem C7_clo_connection_error_witness :
    parse_clo (fun _ => none) exCloDegenerate = .error .connectionError :=
  (C7_clo_connection_error (fun _ => none) exCloDegenerate).mpr (by decide)

/-- Gregorian leap-year test. -/
def isLeap (y : Nat) : Bool := (y % 4 == 0 && y % 100 != 0) || y % 400 == 0

/-- Length of a calendar month; month numbers outside 1..12 give zero. -/
def daysInMonth (y m : Nat) : Nat :=
  match m with
  | 1 => 31
  | 2 => if isLeap y then 29 else 28
  | 3 => 31
  | 4 => 30
  | 5 => 31
  | 6 => 30
  | 7 => 31
  | 8 => 31
  | 9 => 30
  | 10 => 31
  | 11 => 30
  | 12 => 31
  | _ => 0

/-- Days of year y elapsed before month m starts. -/
def cumDays (y : Nat) : Nat → Nat
  | 0 => 0
  | m + 1 => cumDays y m + daysInMonth y m

/-- Length of a calendar year. -/
def daysInYear (y : Nat) : Nat := if isLeap y then 366 else 365

/-- Days elapsed from the civil epoch of year zero to January 1st of year
y. -/
def daysBeforeYear : Nat → Nat
  | 0 => 0
  | y + 1 => daysBeforeYear y + daysInYear y

/-- A Python naive datetime value. -/
structure PyDateTime where
  year : Nat
  month : Nat
  day : Nat
  hour : Nat
  minute : Nat
  second : Nat
deriving DecidableEq, Repr

/-- A datetime denotes a calendar instant. -/
def validDate (t : PyDateTime) : Prop :=
  1 ≤ t.month ∧ t.month ≤ 12 ∧ 1 ≤ t.day ∧ t.day ≤ daysInMonth t.year t.month
    ∧ t.hour ≤ 23 ∧ t.minute ≤ 59 ∧ t.second ≤ 59

instance (t : PyDateTime) : Decidable (validDate t) := by
  unfold validDate
  infer_instance

/-- Model of `time.mktime(date.timetuple())` (the `since_epoch` helper of
`get_dec_year` in lists.py): seconds from the civil epoch of year zero, in
local civil time with no daylight-saving shifts. -/
def since_epoch (t : PyDateTime) : Int :=
  ((daysBeforeYear t.year + cumDays t.year t.month + (t.day - 1) : Nat) : Int)
      * 86400
    + t.hour * 3600 + t.minute * 60 + t.second

/-- Embedding of `get_dec_year` (lists.py): the year plus the fraction of
seconds elapsed since the year start over the duration of the year,
measured between January 1st of the year and January 1st of the next
year. -/
def get_dec_year (date : PyDateTime) : ℚ :=
  let year := date.year
  let year_start : PyDateTime := ⟨year, 1, 1, 0, 0, 0⟩
  let next_year : PyDateTime := ⟨year + 1, 1, 1, 0, 0, 0⟩
  let year_elapsed : ℚ :=
    ((since_epoch date : Int) : ℚ) - ((since_epoch year_start : Int) : ℚ)
  let year_duration : ℚ :=
    ((since_epoch next_year : Int) : ℚ) - ((since_epoch year_start : Int) : ℚ)
  let fraction : ℚ := year_elapsed / year_duration
  year + fraction

theorem cumDays_mono (y : Nat) (a b : Nat) (hab : a ≤ b) :
    cumDays y a ≤ cumDays y b := by
  induction b with
  | zero =>
    have : a = 0 := by omega
    subst this
    exact Nat.le_refl _
  | succ b ih =>
    by_cases hb : a = b + 1
    · subst hb
      exact Nat.le_refl _
    · have h1 : a ≤ b := by omega
      have h2 : cumDays y (b + 1) = cumDays y b + daysInMonth y b := rfl
      have := ih h1
      omega

theorem cumDays_thirteen (y : Nat) : cumDays y 13 = daysInYear y := by
  by_cases h : isLeap y = true <;>
    simp [cumDays, daysInMonth, daysInYear, h]

theorem cumDays_two (y : Nat) : cumDays y 2 = 31 := rfl

/-- Claim C9: the decimal-year conversion sends January 1st of year Y to
exactly Y, January 1st of year Y plus one to exactly Y plus one, and every
valid calendar instant strictly between the two to a value strictly
between Y and Y plus one. -/
theorem C9_dec_year_roundtrip (Y : Nat) :
    get_dec_year ⟨Y, 1, 1, 0, 0, 0⟩ = (Y : ℚ)
    ∧ get_dec_year ⟨Y + 1, 1, 1, 0, 0, 0⟩ = (Y : ℚ) + 1
    ∧ (∀ t : PyDateTime, t.year = Y → validDate t →
        t ≠ ⟨Y, 1, 1, 0, 0, 0⟩ →
        (Y : ℚ) < get_dec_year t ∧ get_dec_year t < (Y : ℚ) + 1) := by
  refine ⟨?_, ?_, ?_⟩
  · unfold get_dec_year
    simp [sub_self, zero_div]
  · unfold get_dec_year
    simp [sub_self, zero_div]
  · rintro ⟨ty, m, d, hh, mi, s⟩ hty hvalid hne
    obtain ⟨hm1, hm12, hd1, hdm, hh23, hmi59, hs59⟩ := hvalid
    simp only at hty
    have hty' : Y = ty := hty.symm
    subst hty'
    simp [ne_eq, PyDateTime.mk.injEq] at hne
    simp only at hm1 hm12 hd1 hdm hh23 hmi59 hs59
    set E : Nat := (cumDays Y m + (d - 1)) * 86400
      + (hh * 3600 + mi * 60 + s) with hEdef
    set D : Nat := daysInYear Y * 86400 with hDdef
    have hsucc : daysBeforeYear (Y + 1) = daysBeforeYear Y + daysInYear Y := rfl
    have hcum1 : cumDays Y 1 = 0 := rfl
    have hstep : cumDays Y (m + 1) = cumDays Y m + daysInMonth Y m := rfl
    have helapsed : since_epoch ⟨Y, m, d, hh, mi, s⟩
        - since_epoch ⟨Y, 1, 1, 0, 0, 0⟩ = (E : Int) := by
      simp only [since_epoch, hcum1, hEdef]
      push_cast
      omega
    have hdur : since_epoch ⟨Y + 1, 1, 1, 0, 0, 0⟩
        - since_epoch ⟨Y, 1, 1, 0, 0, 0⟩ = (D : Int) := by
      simp only [since_epoch, hsucc, hcum1, hDdef]
      have hcum1' : cumDays (Y + 1) 1 = 0 := rfl
      rw [hcum1']
      push_cast
      ring
    have hEpos : 0 < E := by
      have hsplit : (m = 1 ∧ cumDays Y m = 0) ∨ 31 ≤ cumDays Y m := by
        by_cases hm : 2 ≤ m
        · right
          have := cumDays_mono Y 2 m hm
          rw [cumDays_two] at this
          exact this
        · left
          have : m = 1 := by omega
          subst this
          exact ⟨rfl, hcum1⟩
      omega
    have hElt : E < D := by
      have hmono : cumDays Y (m + 1) ≤ cumDays Y 13 :=
        cumDays_mono Y (m + 1) 13 (by omega)
      rw [cumDays_thirteen] at hmono
      rw [hstep] at hmono
      omega
    have hD0 : (0 : ℚ) < (D : ℚ) := by exact_mod_cast hEpos.trans hElt
    have helQ : ((since_epoch ⟨Y, m, d, hh, mi, s⟩ : Int) : ℚ)
        - ((since_epoch ⟨Y, 1, 1, 0, 0, 0⟩ : Int) : ℚ) = (E : ℚ) := by
      rw [← Int.cast_sub, helapsed]
      push_cast
      ring
    have hduQ : ((since_epoch ⟨Y + 1, 1, 1, 0, 0, 0⟩ : Int) : ℚ)
        - ((since_epoch ⟨Y, 1, 1, 0, 0, 0⟩ : Int) : ℚ) = (D : ℚ) := by
      rw [← Int.cast_sub, hdur]
      push_cast
      ring
    have hval : get_dec_year ⟨Y, m, d, hh, mi, s⟩ = (Y : ℚ) + (E : ℚ) / (D : ℚ) := by
      unfold get_dec_year
      simp only
      rw [helQ, hduQ]
    rw [hval]
    have hfrac0 : (0 : ℚ) < (E : ℚ) / (D : ℚ) :=
      div_pos (by exact_mod_cast hEpos) hD0
    have hfrac1 : (E : ℚ) / (D : ℚ) < 1 :=
      (div_lt_one hD0).mpr (by exact_mod_cast hElt)
    constructor <;> linarith

/-- Witness for C9 at year 2021 and the interior instant July 1st. -/
theorem C9_dec_year_roundtrip_witness :
    get_dec_year ⟨2021, 1, 1, 0, 0, 0⟩ = (2021 : ℚ)
    ∧ (2021 : ℚ) < get_dec_year ⟨2021, 7, 1, 0, 0, 0⟩
    ∧ get_dec_year ⟨2021, 7, 1, 0, 0, 0⟩ < (2021 : ℚ) + 1 :=
  have h := C9_dec_year_roundtrip 2021
  have hc := h.2.2 ⟨2021, 7, 1, 0, 0, 0⟩ rfl (by decide) (by decide)
  ⟨h.1, hc.1, hc.2⟩

end NEOCC
